import Mathlib

/-!
Verification of the Codex executor (src/backend/src/executors/codex.rs).

The central object is the log normalizer `normalize_logs`, a pure function
turning the agent's captured output text into a `NormalizedConversation`.
The embedding below translates that function line by line from the Rust
source.  The external JSON parser (the third-party serde_json crate) is
modelled as an abstract parameter `parse : String → Option Json`; every
theorem is proved for all such parsers, and concrete witnesses instantiate
it with finite tables that agree with real JSON parsing on the strings
they mention.
-/

/-- Shallow embedding of serde_json's `Value` type: the JSON values the
normalizer inspects (null, booleans, numbers, strings, arrays, objects). -/
inductive Json where
  | null : Json
  | bool (b : Bool) : Json
  | num (n : Int) : Json
  | str (s : String) : Json
  | arr (elems : List Json) : Json
  | obj (fields : List (String × Json)) : Json

/-- serde_json's `Value::get(key)`: field lookup on objects, `none` on every
other value. -/
def Json.get : Json → String → Option Json
  | .obj fields, key => (fields.find? (fun p => p.1 = key)).map Prod.snd
  | _, _ => none

/-- serde_json's `Value::as_str`: the payload of a string value. -/
def Json.as_str : Json → Option String
  | .str s => some s
  | _ => none

/-- serde_json's `Value::as_array`: the payload of an array value. -/
def Json.as_array : Json → Option (List Json)
  | .arr elems => some elems
  | _ => none

/-- Whitespace as used by Rust's `str::trim`. -/
def isRustWhitespace (c : Char) : Bool := c.isWhitespace

/-- Drop leading and trailing whitespace from a character list. -/
def trimChars (cs : List Char) : List Char :=
  ((cs.dropWhile isRustWhitespace).reverse.dropWhile isRustWhitespace).reverse

/-- Rust's `str::trim` on strings, via the character-list model. -/
def rustTrim (s : String) : String := ⟨trimChars s.data⟩

/-- Split a character list at every newline character; the result always has
one more segment than there are newlines. -/
def splitNl : List Char → List (List Char)
  | [] => [[]]
  | c :: cs =>
    if c = '\n' then [] :: splitNl cs
    else
      match splitNl cs with
      | seg :: rest => (c :: seg) :: rest
      | [] => [[c]]

/-- Remove one trailing carriage return, as Rust's `str::lines` does per line. -/
def stripCr (cs : List Char) : List Char :=
  match cs.reverse with
  | '\r' :: rest => rest.reverse
  | _ => cs

/-- Rust's `str::lines`: split at newlines, drop a final empty segment caused
by a trailing line ending, and strip one trailing carriage return per line. -/
def rustLines (s : String) : List String :=
  let segs := splitNl s.data
  let segs :=
    match segs.reverse with
    | [] :: rest => rest.reverse
    | _ => segs
  segs.map (fun cs => ⟨stripCr cs⟩)

/-- Modelled from the spec: the `ActionType` payload of a tool-use entry
(declared in the crate's executor module, outside src/); it currently
carries a `CommandRun` with the displayed command (spec section 3). -/
inductive ActionType where
  | CommandRun (command : String) : ActionType
deriving DecidableEq

/-- Modelled from the spec: the closed set of entry kinds of the normalized
conversation model (spec section 3), declared in the crate's executor module
outside src/. -/
inductive NormalizedEntryType where
  | SystemMessage : NormalizedEntryType
  | Thinking : NormalizedEntryType
  | ToolUse (tool_name : String) (action_type : ActionType) : NormalizedEntryType
  | AssistantMessage : NormalizedEntryType
deriving DecidableEq

/-- Modelled from the spec: one unit of conversation (spec section 3),
declared in the crate's executor module outside src/.  `metadata` optionally
holds a copy of the originating raw record. -/
structure NormalizedEntry where
  timestamp : Option String
  entry_type : NormalizedEntryType
  content : String
  metadata : Option Json

/-- Modelled from the spec: the output artifact of one run (spec section 3),
declared in the crate's executor module outside src/. -/
structure NormalizedConversation where
  entries : List NormalizedEntry
  session_id : Option String
  executor_type : String
  prompt : Option String
  summary : Option String

/-- The loop body of `normalize_logs` (codex.rs lines 144 to 281) as a state
step: state is the accumulated entries together with the session-id slot.
`parse` stands for `serde_json::from_str`. -/
def processLine (parse : String → Option Json)
    (acc : List NormalizedEntry × Option String) (line : String) :
    List NormalizedEntry × Option String :=
  let entries := acc.1
  let session_id := acc.2
  let trimmed := rustTrim line
  if trimmed.isEmpty then (entries, session_id)
  else
    match parse trimmed with
    | none =>
        (entries ++ [⟨none, .SystemMessage, "Raw output: " ++ trimmed, none⟩], session_id)
    | some json =>
        let session_id :=
          match session_id with
          | some s => some s
          | none => (json.get ("session_id")).bind Json.as_str
        match json.get ("msg") with
        | some msg =>
            match (msg.get ("type")).bind Json.as_str with
            | some msg_type =>
                if msg_type = "task_started" then
                  (entries ++ [⟨none, .SystemMessage, "Task started", some json⟩], session_id)
                else if msg_type = "agent_reasoning" then
                  match (msg.get ("text")).bind Json.as_str with
                  | some text =>
                      (entries ++ [⟨none, .Thinking, text, some json⟩], session_id)
                  | none => (entries, session_id)
                else if msg_type = "exec_command_begin" then
                  match (msg.get ("command")).bind Json.as_array with
                  | some command_array =>
                      let command :=
                        String.intercalate (" ") (command_array.filterMap Json.as_str)
                      let tool_name :=
                        if command_array.head?.bind Json.as_str = some ("bash") then "bash"
                        else "shell"
                      (entries ++
                        [⟨none, .ToolUse tool_name (.CommandRun command),
                          "`" ++ command ++ "`", some json⟩], session_id)
                  | none => (entries, session_id)
                else if msg_type = "exec_command_end" then (entries, session_id)
                else if msg_type = "task_complete" then
                  let entries :=
                    match (msg.get ("last_agent_message")).bind Json.as_str with
                    | some last_message =>
                        entries ++ [⟨none, .AssistantMessage, last_message, some json⟩]
                    | none => entries
                  (entries ++ [⟨none, .SystemMessage, "Task completed", some json⟩], session_id)
                else if msg_type = "token_count" then (entries, session_id)
                else
                  (entries ++
                    [⟨none, .SystemMessage, "Unknown message type: " ++ msg_type, some json⟩],
                   session_id)
            | none => (entries, session_id)
        | none =>
            (entries ++ [⟨none, .SystemMessage, "Unrecognized JSON: " ++ trimmed, some json⟩],
             session_id)

/-- `CodexExecutor::normalize_logs` (codex.rs lines 136 to 290): fold the
per-line step over the input's lines and package the result; the executor
type is the constant "Codex" set in `CodexExecutor::new`. -/
def normalize_logs (parse : String → Option Json) (logs : String) :
    Except String NormalizedConversation :=
  let st := (rustLines logs).foldl (processLine parse)
    (([], none) : List NormalizedEntry × Option String)
  Except.ok ⟨st.1, st.2, "Codex", none, none⟩

/-- The entries one input line contributes, in isolation. -/
def lineEntries (parse : String → Option Json) (line : String) : List NormalizedEntry :=
  (processLine parse ([], none) line).1

/-- The session identifier one input line offers, in isolation. -/
def lineSession (parse : String → Option Json) (line : String) : Option String :=
  (processLine parse ([], none) line).2

/-- First-occurrence combination of the session slot with a line's offer. -/
def sessionCombine : Option String → Option String → Option String
  | some s, _ => some s
  | none, x => x

/-- The string elements of a JSON array, in order (the spec's description of
which command elements are joined). -/
def stringElems : List Json → List String
  | [] => []
  | .str s :: rest => s :: stringElems rest
  | _ :: rest => stringElems rest

/-- Whether the first element of a JSON array is exactly the string "bash"
(the spec's tool-classification condition). -/
def firstIsBash : List Json → Bool
  | Json.str s :: _ => s == "bash"
  | _ => false

/-- Whether a line carries a message of one of the two suppressed types,
exec_command_end or token_count (the spec's suppression rule). -/
def isSuppressedLine (parse : String → Option Json) (line : String) : Bool :=
  match parse (rustTrim line) with
  | some json =>
      match json.get ("msg") with
      | some msg =>
          match (msg.get ("type")).bind Json.as_str with
          | some t => t == "exec_command_end" || t == "token_count"
          | none => false
      | none => false
  | none => false

/-- Modelled from the spec: the process-runner collaborator's builder state
(spec section 6) — command, arguments, standard input, working directory and
environment variables of a process request.  The `CommandRunner` type itself
lives outside src/. -/
structure CommandRequest where
  command : String
  args : List String
  stdin : Option String
  working_dir : Option String
  env : List (String × String)
deriving DecidableEq

/-- The fixed agent command line set in `CodexExecutor::new` (codex.rs line 38). -/
def codexCommandLine : String :=
  "npx @openai/codex exec --dangerously-bypass-approvals-and-sandbox --skip-git-repo-check"

/-- `CodexExecutor::spawn_followup` (codex.rs lines 98 to 132), up to the
actual process start: the constructed request (built through the shell
resolved by `get_shell_command`, modelled as the `shell_cmd`/`shell_arg`
parameters) paired with the diagnostic context string attached to a spawn
error.  The session identifier is used only in the context string. -/
def spawn_followup (shell_cmd shell_arg session_id prompt worktree_path : String) :
    CommandRequest × String :=
  (⟨shell_cmd, [shell_arg, codexCommandLine], some prompt, some worktree_path,
    [("NODE_NO_WARNINGS", "1"), ("RUST_LOG", "info")]⟩,
   "Codex" ++ " CLI followup execution for session " ++ session_id)

/-- A task_started line, as in the repository's own tests. -/
def taskStartedLine : String := "\x7b\"msg\":\x7b\"type\":\"task_started\"\x7d\x7d"

/-- The parsed value of `taskStartedLine`. -/
def taskStartedJson : Json := .obj [("msg", .obj [("type", .str ("task_started"))])]

/-- A task_complete line with a last agent message. -/
def taskCompleteLine : String :=
  "\x7b\"msg\":\x7b\"type\":\"task_complete\",\"last_agent_message\":\"Done!\"\x7d\x7d"

/-- The msg object of `taskCompleteLine`. -/
def taskCompleteMsg : Json :=
  .obj [("type", .str ("task_complete")), ("last_agent_message", .str ("Done!"))]

/-- The parsed value of `taskCompleteLine`. -/
def taskCompleteJson : Json := .obj [("msg", taskCompleteMsg)]

/-- A token_count line, as in the repository's own tests. -/
def tokenCountLine : String :=
  "\x7b\"msg\":\x7b\"type\":\"token_count\",\"total_tokens\":2058\x7d\x7d"

/-- The parsed value of `tokenCountLine`. -/
def tokenCountJson : Json :=
  .obj [("msg", .obj [("type", .str ("token_count")), ("total_tokens", .num 2058)])]

/-- A line carrying a session identifier together with a message. -/
def sessionLine : String :=
  "\x7b\"session_id\":\"abc\",\"msg\":\x7b\"type\":\"task_started\"\x7d\x7d"

/-- The parsed value of `sessionLine`. -/
def sessionJson : Json :=
  .obj [("session_id", .str ("abc")), ("msg", .obj [("type", .str ("task_started"))])]

/-- A later line carrying a different session identifier and no msg field. -/
def sessionLine2 : String := "\x7b\"session_id\":\"zzz\"\x7d"

/-- The parsed value of `sessionLine2`. -/
def sessionJson2 : Json := .obj [("session_id", .str ("zzz"))]

/-- A line whose msg object has no type field. -/
def msgNoTypeLine : String := "\x7b\"session_id\":\"xyz\",\"msg\":\x7b\"note\":1\x7d\x7d"

/-- The msg object of `msgNoTypeLine`. -/
def msgNoTypeMsg : Json := .obj [("note", .num 1)]

/-- The parsed value of `msgNoTypeLine`. -/
def msgNoTypeJson : Json := .obj [("session_id", .str ("xyz")), ("msg", msgNoTypeMsg)]

/-- A finite JSON parser agreeing with serde_json on the demo lines above and
failing everywhere else. -/
def fullDemoParse (s : String) : Option Json :=
  if s = taskStartedLine then some taskStartedJson
  else if s = taskCompleteLine then some taskCompleteJson
  else if s = tokenCountLine then some tokenCountJson
  else if s = sessionLine then some sessionJson
  else if s = sessionLine2 then some sessionJson2
  else if s = msgNoTypeLine then some msgNoTypeJson
  else none

/-- A parser recognizing only the literal JSON value null. -/
def nullParse (s : String) : Option Json :=
  if s = "null" then some Json.null else none

/-- An exec_command_begin line whose command array starts with bash, as in
the repository's own tests. -/
def execBashLine : String :=
  "\x7b\"msg\":\x7b\"type\":\"exec_command_begin\",\"command\":[\"bash\",\"-lc\",\"ls -1\"]\x7d\x7d"

/-- The msg object of `execBashLine`. -/
def execBashMsg : Json :=
  .obj [("type", .str ("exec_command_begin")),
        ("command", .arr [.str ("bash"), .str ("-lc"), .str ("ls -1")])]

/-- The parsed value of `execBashLine`. -/
def execBashJson : Json := .obj [("msg", execBashMsg)]

/-- A parser recognizing only `execBashLine`. -/
def execBashParse (s : String) : Option Json :=
  if s = execBashLine then some execBashJson else none

/-- An exec_command_begin line whose command array mixes strings and a number. -/
def execMixedLine : String :=
  "\x7b\"msg\":\x7b\"type\":\"exec_command_begin\",\"command\":[\"echo\",5,\"hi\"]\x7d\x7d"

/-- The msg object of `execMixedLine`. -/
def execMixedMsg : Json :=
  .obj [("type", .str ("exec_command_begin")),
        ("command", .arr [.str ("echo"), .num 5, .str ("hi")])]

/-- The parsed value of `execMixedLine`. -/
def execMixedJson : Json := .obj [("msg", execMixedMsg)]

/-- An exec_command_begin line with no command field. -/
def execNoCommandLine : String := "\x7b\"msg\":\x7b\"type\":\"exec_command_begin\"\x7d\x7d"

/-- The msg object of `execNoCommandLine`. -/
def execNoCommandMsg : Json := .obj [("type", .str ("exec_command_begin"))]

/-- The parsed value of `execNoCommandLine`. -/
def execNoCommandJson : Json := .obj [("msg", execNoCommandMsg)]

/-- A parser recognizing `execMixedLine` and `execNoCommandLine`. -/
def execMixedParse (s : String) : Option Json :=
  if s = execMixedLine then some execMixedJson
  else if s = execNoCommandLine then some execNoCommandJson
  else none

/-- A three-line log containing a token_count line. -/
def demoLogsWithToken : String :=
  taskStartedLine ++ "\n" ++ tokenCountLine ++ "\n" ++ taskCompleteLine

/-- The same log with the token_count line removed. -/
def demoLogsWithoutToken : String := taskStartedLine ++ "\n" ++ taskCompleteLine

/-- A two-line log whose lines offer the session identifiers abc then zzz. -/
def demoSessionLogs : String := sessionLine ++ "\n" ++ sessionLine2

theorem processLine_eq (parse : String → Option Json) (es : List NormalizedEntry)
    (sid : Option String) (line : String) :
    processLine parse (es, sid) line =
      (es ++ lineEntries parse line, sessionCombine sid (lineSession parse line)) := by
  unfold lineEntries lineSession processLine
  cases sid <;> simp only [sessionCombine] <;>
    repeat' (first | rfl | split | simp [sessionCombine])

theorem foldl_processLine (parse : String → Option Json) (lines : List String) :
    ∀ es sid, lines.foldl (processLine parse) (es, sid) =
      (es ++ lines.flatMap (lineEntries parse),
       sessionCombine sid (lines.findSome? (lineSession parse))) := by
  induction lines with
  | nil => intro es sid; cases sid <;> simp [sessionCombine]
  | cons a l ih =>
      intro es sid
      simp only [List.foldl_cons, processLine_eq, ih, List.flatMap_cons, List.findSome?_cons]
      cases sid <;> cases h : lineSession parse a <;>
        simp [sessionCombine, h, List.append_assoc]

theorem normalize_logs_eq (parse : String → Option Json) (logs : String) :
    normalize_logs parse logs =
      Except.ok ⟨(rustLines logs).flatMap (lineEntries parse),
        (rustLines logs).findSome? (lineSession parse), "Codex", none, none⟩ := by
  simp [normalize_logs, foldl_processLine, sessionCombine]

theorem filterMap_as_str_eq_stringElems (xs : List Json) :
    xs.filterMap Json.as_str = stringElems xs := by
  induction xs with
  | nil => rfl
  | cons a rest ih => cases a <;> simp [stringElems, Json.as_str, ih]

theorem firstIsBash_iff (xs : List Json) :
    firstIsBash xs = true ↔ xs.head? = some (Json.str ("bash")) := by
  cases xs with
  | nil => simp [firstIsBash]
  | cons a rest => cases a <;> simp [firstIsBash]

theorem head_as_str_bash (xs : List Json) :
    (xs.head?.bind Json.as_str = some ("bash")) ↔ firstIsBash xs = true := by
  cases xs with
  | nil => simp [firstIsBash]
  | cons a rest => cases a <;> simp [firstIsBash, Json.as_str]

theorem tool_name_bash_iff (xs : List Json) :
    ((if firstIsBash xs then "bash" else "shell") = ("bash" : String)) ↔
      xs.head? = some (Json.str ("bash")) := by
  rw [← firstIsBash_iff]
  cases hb : firstIsBash xs <;> simp

theorem lineEntries_suppressed (parse : String → Option Json) (line : String)
    (hs : isSuppressedLine parse line = true) : lineEntries parse line = [] := by
  unfold isSuppressedLine at hs
  cases h0 : (rustTrim line).isEmpty with
  | true => unfold lineEntries processLine; simp [h0]
  | false =>
      cases h1 : parse (rustTrim line) with
      | none => simp only [h1] at hs; exact absurd hs (by decide)
      | some json =>
          simp only [h1] at hs
          cases h2 : json.get ("msg") with
          | none => simp only [h2] at hs; exact absurd hs (by decide)
          | some msg =>
              simp only [h2] at hs
              cases h3 : (msg.get ("type")).bind Json.as_str with
              | none => simp only [h3] at hs; exact absurd hs (by decide)
              | some t =>
                  simp only [h3, Bool.or_eq_true, beq_iff_eq] at hs
                  unfold lineEntries processLine
                  rcases hs with hs | hs <;> subst hs <;> simp [h0, h1, h2, h3]

theorem flatMap_filter_not_suppressed (parse : String → Option Json) (lines : List String) :
    ((lines.filter (fun l => !(isSuppressedLine parse l))).flatMap (lineEntries parse)) =
      lines.flatMap (lineEntries parse) := by
  induction lines with
  | nil => rfl
  | cons a l ih =>
      cases hs : isSuppressedLine parse a with
      | true => simp [List.filter_cons, hs, ih, lineEntries_suppressed parse a hs]
      | false => simp [List.filter_cons, hs, ih]

/-- Claim C1, amended: `normalize_logs` always returns Ok, its entries are the
concatenation of the per-line contributions, and every line whose trimmed form
is non-empty and fails to parse as JSON contributes exactly one SystemMessage
entry whose content is "Raw output: " followed by the trimmed line, with no
metadata. -/
theorem raw_output_amended (parse : String → Option Json) (logs line : String)
    (h₀ : (rustTrim line).isEmpty = false)
    (h₁ : parse (rustTrim line) = none) :
    normalize_logs parse logs =
      Except.ok ⟨(rustLines logs).flatMap (lineEntries parse),
        (rustLines logs).findSome? (lineSession parse), "Codex", none, none⟩ ∧
    lineEntries parse line =
      [⟨none, .SystemMessage, "Raw output: " ++ rustTrim line, none⟩] := by
  refine ⟨normalize_logs_eq parse logs, ?_⟩
  unfold lineEntries processLine
  simp [h₀, h₁]

/-- Claim C1, witness: a concrete unparseable line yields exactly one raw
SystemMessage entry. -/
theorem raw_output_amended_witness :
    lineEntries fullDemoParse "not json here" =
      [⟨none, .SystemMessage, "Raw output: not json here", none⟩] :=
  (raw_output_amended fullDemoParse "" "not json here" rfl rfl).2

/-- Claim C1, counterexample to the claim as stated: on the input line
"  not json  " the single entry produced carries the trimmed line, not the
original line, after the "Raw output: " marker. -/
theorem raw_output_original_line_cex :
    Except.map (fun c => c.entries.map (fun e => e.content))
      (normalize_logs (fun _ => none) "  not json  ") =
      Except.ok ["Raw output: not json"] ∧
    ("Raw output: not json" : String) ≠ "Raw output:   not json  " := by
  exact ⟨rfl, by decide⟩

/-- Claim C2: a task_complete line contributes, in order, an AssistantMessage
with the last agent message (when that field is a string) followed by a
SystemMessage reading "Task completed", both with the full record as
metadata; with the field absent or not a string, only the SystemMessage. -/
theorem task_complete_entries (parse : String → Option Json) (logs line : String)
    (json msg : Json) (h₀ : (rustTrim line).isEmpty = false)
    (h₁ : parse (rustTrim line) = some json)
    (h₂ : json.get ("msg") = some msg)
    (h₃ : (msg.get ("type")).bind Json.as_str = some ("task_complete")) :
    normalize_logs parse logs =
      Except.ok ⟨(rustLines logs).flatMap (lineEntries parse),
        (rustLines logs).findSome? (lineSession parse), "Codex", none, none⟩ ∧
    lineEntries parse line =
      (match (msg.get ("last_agent_message")).bind Json.as_str with
       | some t => [⟨none, .AssistantMessage, t, some json⟩]
       | none => []) ++ [⟨none, .SystemMessage, "Task completed", some json⟩] := by
  refine ⟨normalize_logs_eq parse logs, ?_⟩
  unfold lineEntries processLine
  simp only [h₀, h₁, h₂, h₃, Option.bind_some]
  simp only [Bool.false_eq_true, if_false]
  simp only [String.reduceEq, if_false, if_true, reduceIte]
  split <;> simp

/-- Claim C2, witness: a concrete task_complete line with a last agent message
yields the two entries in order. -/
theorem task_complete_entries_witness :
    lineEntries fullDemoParse taskCompleteLine =
      [⟨none, .AssistantMessage, "Done!", some taskCompleteJson⟩,
       ⟨none, .SystemMessage, "Task completed", some taskCompleteJson⟩] :=
  (task_complete_entries fullDemoParse "" taskCompleteLine taskCompleteJson taskCompleteMsg
    rfl rfl rfl rfl).2

/-- Claim C3: an exec_command_begin line whose msg.command is an array
contributes one ToolUse entry whose tool name is "bash" exactly when the
array's first element is the string "bash" and "shell" otherwise, whose
content is the space-joined string elements wrapped in backticks, and whose
action is CommandRun with that joined command. -/
theorem exec_command_begin_classification (parse : String → Option Json)
    (logs line : String) (json msg : Json) (command_array : List Json)
    (h₀ : (rustTrim line).isEmpty = false)
    (h₁ : parse (rustTrim line) = some json)
    (h₂ : json.get ("msg") = some msg)
    (h₃ : (msg.get ("type")).bind Json.as_str = some ("exec_command_begin"))
    (h₄ : (msg.get ("command")).bind Json.as_array = some command_array) :
    normalize_logs parse logs =
      Except.ok ⟨(rustLines logs).flatMap (lineEntries parse),
        (rustLines logs).findSome? (lineSession parse), "Codex", none, none⟩ ∧
    lineEntries parse line =
      [⟨none,
        .ToolUse (if firstIsBash command_array then "bash" else "shell")
          (.CommandRun (String.intercalate (" ") (stringElems command_array))),
        "`" ++ String.intercalate (" ") (stringElems command_array) ++ "`", some json⟩] ∧
    ((if firstIsBash command_array then "bash" else "shell") = "bash" ↔
      command_array.head? = some (Json.str ("bash"))) := by
  refine ⟨normalize_logs_eq parse logs, ?_, ?_⟩
  · unfold lineEntries processLine
    simp only [h₀, h₁, h₂, h₃, h₄, Option.bind_some]
    simp only [String.reduceEq, if_false, reduceIte, Bool.false_eq_true]
    rw [filterMap_as_str_eq_stringElems]
    cases hb : firstIsBash command_array with
    | true => rw [if_pos ((head_as_str_bash command_array).mpr hb)]; simp [hb]
    | false =>
        rw [if_neg (fun hc => by
          have := (head_as_str_bash command_array).mp hc
          rw [hb] at this
          exact Bool.false_ne_true this)]
        simp [hb]
  · exact tool_name_bash_iff command_array

/-- Claim C3, witness: the bash command line from the repository's tests maps
to the bash tool with the expected backtick-wrapped content. -/
theorem exec_command_begin_classification_witness :
    lineEntries execBashParse execBashLine =
      [⟨none, .ToolUse ("bash") (.CommandRun ("bash -lc ls -1")),
        "`bash -lc ls -1`", some execBashJson⟩] :=
  (exec_command_begin_classification execBashParse "" execBashLine execBashJson execBashMsg
    [.str ("bash"), .str ("-lc"), .str ("ls -1")] rfl rfl rfl rfl rfl).2.1

/-- Claim C4: lines of the suppressed message types exec_command_end and
token_count contribute no entries, and the entries of a log equal the entries
of the same log with all such lines removed. -/
theorem suppressed_types_produce_no_entries (parse : String → Option Json)
    (logs1 logs2 line : String)
    (h : rustLines logs2 = (rustLines logs1).filter (fun l => !(isSuppressedLine parse l)))
    (hs : isSuppressedLine parse line = true) :
    lineEntries parse line = [] ∧
    Except.map NormalizedConversation.entries (normalize_logs parse logs1) =
      Except.map NormalizedConversation.entries (normalize_logs parse logs2) := by
  refine ⟨lineEntries_suppressed parse line hs, ?_⟩
  rw [normalize_logs_eq, normalize_logs_eq, h, flatMap_filter_not_suppressed]
  rfl

/-- Claim C4, witness: a concrete three-line log with a token_count line has
the same entries as the two-line log without it. -/
theorem suppressed_types_produce_no_entries_witness :
    lineEntries fullDemoParse tokenCountLine = [] ∧
    Except.map NormalizedConversation.entries (normalize_logs fullDemoParse demoLogsWithToken) =
      Except.map NormalizedConversation.entries
        (normalize_logs fullDemoParse demoLogsWithoutToken) :=
  suppressed_types_produce_no_entries fullDemoParse demoLogsWithToken demoLogsWithoutToken
    tokenCountLine rfl rfl

/-- Claim C5: the conversation's session identifier is the first one offered
by any line in input order; a parsed line offers the value of its top-level
string field session_id, and an unparseable line offers none. -/
theorem session_id_first_occurrence (parse : String → Option Json)
    (logs line line2 : String) (json : Json)
    (h₀ : (rustTrim line).isEmpty = false)
    (h₁ : parse (rustTrim line) = some json)
    (h₂ : parse (rustTrim line2) = none) :
    Except.map NormalizedConversation.session_id (normalize_logs parse logs) =
      Except.ok ((rustLines logs).findSome? (lineSession parse)) ∧
    lineSession parse line = (json.get ("session_id")).bind Json.as_str ∧
    lineSession parse line2 = none := by
  refine ⟨?_, ?_, ?_⟩
  · rw [normalize_logs_eq]; rfl
  · unfold lineSession processLine
    simp only [h₀, h₁, Bool.false_eq_true, if_false]
    repeat' (first | rfl | split)
  · unfold lineSession processLine
    cases h0 : (rustTrim line2).isEmpty with
    | true => simp [h0]
    | false => simp [h0, h₂]

/-- Claim C5, witness: with two lines offering abc then zzz, the conversation
keeps abc, and a non-JSON line offers no session identifier. -/
theorem session_id_first_occurrence_witness :
    Except.map NormalizedConversation.session_id
      (normalize_logs fullDemoParse demoSessionLogs) = Except.ok (some ("abc")) ∧
    lineSession fullDemoParse sessionLine = some ("abc") ∧
    lineSession fullDemoParse "oops" = none :=
  session_id_first_occurrence fullDemoParse demoSessionLogs sessionLine "oops" sessionJson
    rfl rfl rfl

/-- Claim C6: `normalize_logs` is a pure function of the input text; its
result is fully determined by the sequence of input lines, so re-running it
on an identical input yields an identical result. -/
theorem normalize_logs_deterministic (parse : String → Option Json) (logs1 logs2 : String)
    (h : rustLines logs1 = rustLines logs2) :
    normalize_logs parse logs1 = normalize_logs parse logs2 := by
  rw [normalize_logs_eq, normalize_logs_eq, h]

/-- Claim C6, witness: two textually different inputs with the same line
sequence normalize identically. -/
theorem normalize_logs_deterministic_witness :
    normalize_logs fullDemoParse (taskStartedLine ++ "\n") =
      normalize_logs fullDemoParse taskStartedLine :=
  normalize_logs_deterministic fullDemoParse (taskStartedLine ++ "\n") taskStartedLine rfl

/-- Claim C7, amended: a line that parses as JSON but has no top-level msg
field contributes exactly one SystemMessage entry whose content is
"Unrecognized JSON: " followed by the trimmed line, with the full parsed
value as metadata. -/
theorem unrecognized_json_amended (parse : String → Option Json) (logs line : String)
    (json : Json) (h₀ : (rustTrim line).isEmpty = false)
    (h₁ : parse (rustTrim line) = some json)
    (h₂ : json.get ("msg") = none) :
    normalize_logs parse logs =
      Except.ok ⟨(rustLines logs).flatMap (lineEntries parse),
        (rustLines logs).findSome? (lineSession parse), "Codex", none, none⟩ ∧
    lineEntries parse line =
      [⟨none, .SystemMessage, "Unrecognized JSON: " ++ rustTrim line, some json⟩] := by
  refine ⟨normalize_logs_eq parse logs, ?_⟩
  unfold lineEntries processLine
  simp [h₀, h₁, h₂]

/-- Claim C7, witness: the JSON value null has no msg field and yields one
unrecognized-JSON entry carrying the parsed value. -/
theorem unrecognized_json_amended_witness :
    lineEntries nullParse "null" =
      [⟨none, .SystemMessage, "Unrecognized JSON: null", some Json.null⟩] :=
  (unrecognized_json_amended nullParse "" "null" Json.null rfl rfl rfl).2

/-- Claim C7, counterexample to the claim as stated: on the input line
"  null  " the single entry produced carries the trimmed line, not the
original line, after the "Unrecognized JSON: " marker. -/
theorem unrecognized_json_original_line_cex :
    Except.map (fun c => c.entries.map (fun e => e.content))
      (normalize_logs nullParse "  null  ") =
      Except.ok ["Unrecognized JSON: null"] ∧
    ("Unrecognized JSON: null" : String) ≠ "Unrecognized JSON:   null  " := by
  exact ⟨rfl, by decide⟩

/-- Claim C8: the process request constructed by spawn_followup does not
depend on the session identifier — any two session identifiers give the same
command, arguments, standard input, working directory and environment — and
the session identifier appears only in the diagnostic context string attached
to a spawn error. -/
theorem spawn_followup_ignores_session_id
    (shell_cmd shell_arg s1 s2 prompt worktree_path : String) :
    (spawn_followup shell_cmd shell_arg s1 prompt worktree_path).1 =
      (spawn_followup shell_cmd shell_arg s2 prompt worktree_path).1 ∧
    (spawn_followup shell_cmd shell_arg s1 prompt worktree_path).2 =
      "Codex CLI followup execution for session " ++ s1 := by
  exact ⟨rfl, rfl⟩

/-- Claim C9: a parsed line whose msg field lacks a string type subfield is
silently dropped — it contributes no entry of any kind — while still offering
its top-level session_id value. -/
theorem msg_without_type_dropped (parse : String → Option Json) (logs line : String)
    (json msg : Json)
    (h₀ : (rustTrim line).isEmpty = false)
    (h₁ : parse (rustTrim line) = some json)
    (h₂ : json.get ("msg") = some msg)
    (h₃ : (msg.get ("type")).bind Json.as_str = none) :
    normalize_logs parse logs =
      Except.ok ⟨(rustLines logs).flatMap (lineEntries parse),
        (rustLines logs).findSome? (lineSession parse), "Codex", none, none⟩ ∧
    lineEntries parse line = [] ∧
    lineSession parse line = (json.get ("session_id")).bind Json.as_str := by
  refine ⟨normalize_logs_eq parse logs, ?_, ?_⟩
  · unfold lineEntries processLine
    simp [h₀, h₁, h₂, h₃]
  · unfold lineSession processLine
    simp [h₀, h₁, h₂, h₃]

/-- Claim C9, witness: a concrete line whose msg has no type contributes no
entries yet supplies its session identifier. -/
theorem msg_without_type_dropped_witness :
    lineEntries fullDemoParse msgNoTypeLine = [] ∧
    lineSession fullDemoParse msgNoTypeLine = some ("xyz") :=
  ⟨(msg_without_type_dropped fullDemoParse "" msgNoTypeLine msgNoTypeJson msgNoTypeMsg
      rfl rfl rfl rfl).2.1,
   (msg_without_type_dropped fullDemoParse "" msgNoTypeLine msgNoTypeJson msgNoTypeMsg
      rfl rfl rfl rfl).2.2⟩

/-- Claim C10: on an exec_command_begin line, a missing or non-array
msg.command yields no entry at all, and a command array's non-string elements
are omitted from the space-joined displayed command — only its string
elements are joined. -/
theorem exec_command_begin_defensive (parse : String → Option Json)
    (logs line : String) (json msg : Json)
    (h₀ : (rustTrim line).isEmpty = false)
    (h₁ : parse (rustTrim line) = some json)
    (h₂ : json.get ("msg") = some msg)
    (h₃ : (msg.get ("type")).bind Json.as_str = some ("exec_command_begin")) :
    normalize_logs parse logs =
      Except.ok ⟨(rustLines logs).flatMap (lineEntries parse),
        (rustLines logs).findSome? (lineSession parse), "Codex", none, none⟩ ∧
    lineEntries parse line =
      (match (msg.get ("command")).bind Json.as_array with
       | none => []
       | some command_array =>
          [⟨none,
            .ToolUse (if firstIsBash command_array then "bash" else "shell")
              (.CommandRun (String.intercalate (" ") (stringElems command_array))),
            "`" ++ String.intercalate (" ") (stringElems command_array) ++ "`",
            some json⟩]) := by
  refine ⟨normalize_logs_eq parse logs, ?_⟩
  unfold lineEntries processLine
  simp only [h₀, h₁, h₂, h₃, Option.bind_some]
  simp only [String.reduceEq, if_false, reduceIte, Bool.false_eq_true]
  cases h₄ : (msg.get ("command")).bind Json.as_array with
  | none => simp
  | some command_array =>
      simp only [List.nil_append]
      rw [filterMap_as_str_eq_stringElems]
      cases hb : firstIsBash command_array with
      | true => rw [if_pos ((head_as_str_bash command_array).mpr hb)]; simp [hb]
      | false =>
          rw [if_neg (fun hc => by
            have := (head_as_str_bash command_array).mp hc
            rw [hb] at this
            exact Bool.false_ne_true this)]
          simp [hb]

/-- Claim C10, witness: a mixed command array joins only its string elements,
and a line without a command array yields no entry. -/
theorem exec_command_begin_defensive_witness :
    lineEntries execMixedParse execMixedLine =
      [⟨none, .ToolUse ("shell") (.CommandRun ("echo hi")), "`echo hi`", some execMixedJson⟩] ∧
    lineEntries execMixedParse execNoCommandLine = [] := by
  exact ⟨(exec_command_begin_defensive execMixedParse "" execMixedLine execMixedJson
            execMixedMsg rfl rfl rfl rfl).2,
         (exec_command_begin_defensive execMixedParse "" execNoCommandLine execNoCommandJson
            execNoCommandMsg rfl rfl rfl rfl).2⟩
